import Mathlib

/-!
# Verification of the odometryMAP numeric core (`map_creator.py`)

Shallow embedding of the signal-processing core of `map_creator.py`:

* `cumulative_trapezoid` — the `scipy.integrate.cumulative_trapezoid(y, t, initial=0)`
  stages used by `integrate_acceleration`, embedded over `ℚ` (exact arithmetic
  idealising the float computation);
* `savgol_filter` — the `scipy.signal.savgol_filter(x, 7, 3)` smoothing stage;
* `integrate_acceleration` — filter then double integration, per axis;
* `calculate_acceleration_frequency` — average-interval frequency estimate;
* `filter_diverging_gps_points` — the leading-GPS-outlier removal heuristic,
  embedded over `ℝ` because it takes planar Euclidean distances (`np.sqrt`).

Theorems then settle the specification claims about these functions.
-/

namespace MapCreator

/-- Error raised by the smoothing stage when the series is shorter than the
filter window (scipy refuses `savgol_filter` when `x.size < window_length`). -/
inductive PipelineError where
  | insufficientSamples
  deriving DecidableEq, Repr

/-! ## Integrator: `scipy.integrate.cumulative_trapezoid(y, t, initial=0)`

scipy computes `d = diff(t)` and `res = concat([0], cumsum(d * (y[1:] + y[:-1]) / 2))`.
We embed that as a fold carrying the accumulator and the previous sample. -/

/-- Accumulating tail of the cumulative trapezoid: `acc` is the running integral,
`tp`/`yp` the previous timestamp and value. -/
def cumtrapAux (acc tp yp : ℚ) : List ℚ → List ℚ → List ℚ
  | ti :: ts, yi :: ys =>
      let acc2 := acc + (ti - tp) * (yi + yp) / 2
      acc2 :: cumtrapAux acc2 ti yi ts ys
  | _, _ => []

/-- `cumulative_trapezoid y t` with `initial=0`: output starts at `0` and adds one
trapezoid area per consecutive sample pair. -/
def cumulative_trapezoid (y t : List ℚ) : List ℚ :=
  match y, t with
  | y0 :: ys, t0 :: ts => 0 :: cumtrapAux 0 t0 y0 ts ys
  | _, _ => []

/-! ## SignalFilter: `scipy.signal.savgol_filter(x, window, 3)` -/

/-- Determinant of a 3×3 matrix given row by row. -/
def det3 (a b c d e f g h i : ℚ) : ℚ :=
  a * (e * i - f * h) - b * (d * i - f * g) + c * (d * h - e * g)

/-- Determinant of a 4×4 matrix given row by row, by cofactor expansion. -/
def det4 (a b c d e f g h i j k l m n o p : ℚ) : ℚ :=
  a * det3 f g h j k l n o p - b * det3 e g h i k l m o p
    + c * det3 e f h i j l m n p - d * det3 e f g i j k m n o

/-- `powSum n k = Σ_{j<n} j^k`, entry of the normal-equation matrix of a
polynomial least-squares fit at abscissae `0, 1, …, n-1`. -/
def powSum (n k : ℕ) : ℚ :=
  ((List.range n).map (fun j => (j : ℚ) ^ k)).sum

/-- `momSum ys k = Σ_j j^k * ys[j]`, right-hand side of the normal equations. -/
def momSum (ys : List ℚ) (k : ℕ) : ℚ :=
  (((List.range ys.length).zip ys).map (fun p => (p.1 : ℚ) ^ k * p.2)).sum

/-- Least-squares cubic through the points `(j, ys[j])`, `j = 0, …, ys.length-1`,
evaluated at `x`: the normal equations are solved by Cramer's rule. -/
def fitCubicEval (ys : List ℚ) (x : ℚ) : ℚ :=
  let s := powSum ys.length
  let m := momSum ys
  let d := det4 (s 0) (s 1) (s 2) (s 3) (s 1) (s 2) (s 3) (s 4)
    (s 2) (s 3) (s 4) (s 5) (s 3) (s 4) (s 5) (s 6)
  let a0 := det4 (m 0) (s 1) (s 2) (s 3) (m 1) (s 2) (s 3) (s 4)
    (m 2) (s 3) (s 4) (s 5) (m 3) (s 4) (s 5) (s 6) / d
  let a1 := det4 (s 0) (m 0) (s 2) (s 3) (s 1) (m 1) (s 3) (s 4)
    (s 2) (m 2) (s 4) (s 5) (s 3) (m 3) (s 5) (s 6) / d
  let a2 := det4 (s 0) (s 1) (m 0) (s 3) (s 1) (s 2) (m 1) (s 4)
    (s 2) (s 3) (m 2) (s 5) (s 3) (s 4) (m 3) (s 6) / d
  let a3 := det4 (s 0) (s 1) (s 2) (m 0) (s 1) (s 2) (s 3) (m 1)
    (s 2) (s 3) (s 4) (m 2) (s 3) (s 4) (s 5) (m 3) / d
  a0 + a1 * x + a2 * x ^ 2 + a3 * x ^ 3

/-- Modelled from the spec: the value the Savitzky–Golay filter (cubic fit,
window `w`, scipy mode `interp`) assigns to index `i`: interior points take the
centre of the cubic fitted to the window around them; the first and last `w/2`
points take the cubic fitted to the first (resp. last) `w` samples, evaluated
at their own offset (scipy's boundary polynomial extrapolation). -/
def savgolValue (xs : List ℚ) (w : ℕ) (i : ℕ) : ℚ :=
  let n := xs.length
  let h := w / 2
  if i < h then fitCubicEval (xs.take w) (i : ℚ)
  else if n ≤ i + h then fitCubicEval (xs.drop (n - w)) ((i - (n - w) : ℕ) : ℚ)
  else fitCubicEval ((xs.drop (i - h)).take w) (h : ℚ)

/-- Modelled from the spec: `scipy.signal.savgol_filter(x, window, polyorder)`
(external library code, not under `src/`): local polynomial-regression
smoothing; same length as the input; fails when the series is shorter than the
window. The fitted values model the cubic (`polyorder = 3`) case used by
`integrate_acceleration`. -/
def savgol_filter (xs : List ℚ) (window : ℕ) (_polyorder : ℕ) :
    Except PipelineError (List ℚ) :=
  if xs.length < window then .error .insufficientSamples
  else .ok ((List.range xs.length).map (savgolValue xs window))

/-! ## DisplacementEstimator: `integrate_acceleration`

The CSV loading is the external collaborator's job; the embedding takes the
four columns as lists. -/

/-- `integrate_acceleration`: per axis, Savitzky–Golay smoothing (window 7,
degree 3) then double cumulative trapezoidal integration against `t`;
returns the three displacement series and the sample count. -/
def integrate_acceleration (t ax ay az : List ℚ) :
    Except PipelineError (List ℚ × List ℚ × List ℚ × ℕ) := do
  let fx ← savgol_filter ax 7 3
  let fy ← savgol_filter ay 7 3
  let fz ← savgol_filter az 7 3
  let vx := cumulative_trapezoid fx t
  let vy := cumulative_trapezoid fy t
  let vz := cumulative_trapezoid fz t
  let dx := cumulative_trapezoid vx t
  let dy := cumulative_trapezoid vy t
  let dz := cumulative_trapezoid vz t
  return (dx, dy, dz, t.length)

/-! ## FrequencyEstimator: `calculate_acceleration_frequency` -/

/-- `calculate_acceleration_frequency`: average sampling interval over the whole
series, inverted when positive; sentinel `0` otherwise, count always returned. -/
def calculate_acceleration_frequency (times : List ℚ) : ℚ × ℕ :=
  if 1 < times.length then
    let avg_interval := (times.getLast?.getD 0 - times.headD 0) / ((times.length : ℚ) - 1)
    (if 0 < avg_interval then 1 / avg_interval else 0, times.length)
  else
    (0, times.length)

/-! ## DivergenceFilter: `filter_diverging_gps_points`

The coordinates are floats compared through `np.sqrt` Euclidean distances; the
embedding idealises them as reals. -/

/-- The step distances the filter examines: for
`i ∈ range(1, min(max_points_to_check + 1, len(latitudes)))`, the planar
Euclidean distance between positions `i-1` and `i`. -/
noncomputable def stepDistances (lats lons : List ℝ) (maxCheck : ℕ) : List ℝ :=
  (List.range' 1 (min (maxCheck + 1) lats.length - 1)).map (fun i =>
    Real.sqrt ((lats.getD i 0 - lats.getD (i - 1) 0) ^ 2
      + (lons.getD i 0 - lons.getD (i - 1) 0) ^ 2))

/-- `np.median`: sort, take the middle element (odd length) or the mean of the
two middle elements (even length). -/
noncomputable def npMedian (l : List ℝ) : ℝ :=
  let s := l.insertionSort (· ≤ ·)
  if l.length % 2 = 1 then s.getD (l.length / 2) 0
  else (s.getD (l.length / 2 - 1) 0 + s.getD (l.length / 2) 0) / 2

/-- The scan of `filter_diverging_gps_points`: `i` is the enumeration index,
`acc` the current `points_to_remove`; a distance above the threshold records
`i + 1`, the first one not above it breaks out of the loop. -/
noncomputable def scanRemoveAux (threshold : ℝ) : ℕ → ℕ → List ℝ → ℕ
  | _, acc, [] => acc
  | i, acc, d :: ds =>
      if threshold < d then scanRemoveAux threshold (i + 1) (i + 1) ds else acc

/-- `points_to_remove` as computed by the loop in `filter_diverging_gps_points`. -/
noncomputable def scanRemove (ds : List ℝ) (threshold : ℝ) : ℕ :=
  scanRemoveAux threshold 0 0 ds

/-- `filter_diverging_gps_points(latitudes, longitudes, max_points_to_check=10)`:
returns the retained latitudes, retained longitudes and the removed count. -/
noncomputable def filter_diverging_gps_points (lats lons : List ℝ)
    (maxCheck : ℕ := 10) : List ℝ × List ℝ × ℕ :=
  if lats.length < maxCheck then (lats, lons, 0)
  else
    let distances := stepDistances lats lons maxCheck
    if distances.length < 3 then (lats, lons, 0)
    else
      let threshold := 2 * npMedian distances
      let p := scanRemove distances threshold
      if 0 < p then (lats.drop p, lons.drop p, p) else (lats, lons, 0)

/-- Derived characterisation of the removed count: `0` on the early-return
branches, otherwise the length of the leading run of step distances strictly
above twice the median. Proven equal to the loop's result below. -/
noncomputable def removedCount (lats lons : List ℝ) (maxCheck : ℕ) : ℕ :=
  if lats.length < maxCheck then 0
  else
    let ds := stepDistances lats lons maxCheck
    if ds.length < 3 then 0
    else (ds.takeWhile (fun d => decide (2 * npMedian ds < d))).length

/-! ## Lemmas about the integrator -/

theorem cumtrapAux_length (ts : List ℚ) :
    ∀ (ys : List ℚ) (acc tp yp : ℚ),
      (cumtrapAux acc tp yp ts ys).length = min ts.length ys.length := by
  induction ts with
  | nil => intro ys acc tp yp; cases ys <;> simp [cumtrapAux]
  | cons t1 ts ih =>
    intro ys acc tp yp
    cases ys with
    | nil => simp [cumtrapAux]
    | cons y1 ys => simp [cumtrapAux, ih]; omega

theorem cumulative_trapezoid_length (y t : List ℚ) (h : y.length = t.length) :
    (cumulative_trapezoid y t).length = y.length := by
  rcases y with _ | ⟨y0, ys⟩
  · simp [cumulative_trapezoid]
  · rcases t with _ | ⟨t0, ts⟩
    · simp at h
    · simp only [List.length_cons] at h
      simp [cumulative_trapezoid, cumtrapAux_length]
      omega

theorem cumulative_trapezoid_getD_zero (y t : List ℚ) :
    (cumulative_trapezoid y t).getD 0 0 = 0 := by
  cases y <;> cases t <;> simp [cumulative_trapezoid]

theorem cumtrapAux_getD_succ (i : ℕ) :
    ∀ (ts ys : List ℚ) (acc tp yp : ℚ), i + 1 < min ts.length ys.length →
      (cumtrapAux acc tp yp ts ys).getD (i + 1) 0 =
        (cumtrapAux acc tp yp ts ys).getD i 0 +
          (ts.getD (i + 1) 0 - ts.getD i 0) * (ys.getD (i + 1) 0 + ys.getD i 0) / 2 := by
  induction i with
  | zero =>
    intro ts ys acc tp yp h
    rw [Nat.lt_min] at h
    obtain ⟨h1, h2⟩ := h
    rcases ts with _ | ⟨t1, _ | ⟨t2, ts⟩⟩
    · simp at h1
    · simp at h1
    · rcases ys with _ | ⟨y1, _ | ⟨y2, ys⟩⟩
      · simp at h2
      · simp at h2
      · simp [cumtrapAux]
  | succ i ih =>
    intro ts ys acc tp yp h
    rcases ts with _ | ⟨t1, ts⟩
    · simp at h
    rcases ys with _ | ⟨y1, ys⟩
    · simp at h
    have hlt : i + 1 < min ts.length ys.length := by
      rw [Nat.lt_min] at h ⊢
      simp only [List.length_cons] at h
      omega
    simp only [cumtrapAux, List.getD_cons_succ]
    exact ih ts ys _ t1 y1 hlt

theorem cumulative_trapezoid_getD_succ (y t : List ℚ) (h : y.length = t.length)
    (i : ℕ) (hi : i + 1 < y.length) :
    (cumulative_trapezoid y t).getD (i + 1) 0 =
      (cumulative_trapezoid y t).getD i 0 +
        (t.getD (i + 1) 0 - t.getD i 0) * (y.getD (i + 1) 0 + y.getD i 0) / 2 := by
  rcases y with _ | ⟨y0, ys⟩
  · simp at hi
  rcases t with _ | ⟨t0, ts⟩
  · simp at h
  simp only [List.length_cons] at h hi
  cases i with
  | zero =>
    rcases ys with _ | ⟨y1, ys⟩
    · simp at hi
    rcases ts with _ | ⟨t1, ts⟩
    · simp at h
    simp [cumulative_trapezoid, cumtrapAux]
  | succ i =>
    have hi' : i + 1 < min ts.length ys.length := by
      rw [Nat.lt_min]
      omega
    simp only [cumulative_trapezoid, List.getD_cons_succ]
    exact cumtrapAux_getD_succ i ts ys 0 t0 y0 hi'

theorem cumulative_trapezoid_single (y t : List ℚ) (hy : y.length = 1)
    (ht : t.length = 1) : cumulative_trapezoid y t = [0] := by
  rcases y with _ | ⟨y0, _ | _⟩ <;> rcases t with _ | ⟨t0, _ | _⟩ <;>
    simp_all [cumulative_trapezoid, cumtrapAux]

/-! ## Lemmas about the smoothing stage and the displacement pipeline -/

theorem savgol_filter_error_iff (xs : List ℚ) (w p : ℕ) :
    savgol_filter xs w p = .error .insufficientSamples ↔ xs.length < w := by
  unfold savgol_filter
  split <;> simp_all

theorem savgol_filter_ok_length (xs : List ℚ) (w p : ℕ) (ys : List ℚ)
    (h : savgol_filter xs w p = .ok ys) : ys.length = xs.length := by
  unfold savgol_filter at h
  split at h
  · exact absurd h (by simp)
  · simp only [Except.ok.injEq] at h
    subst h
    simp

theorem savgol_filter_ok_of_le (xs : List ℚ) (w p : ℕ) (h : w ≤ xs.length) :
    savgol_filter xs w p = .ok ((List.range xs.length).map (savgolValue xs w)) := by
  unfold savgol_filter
  rw [if_neg (by omega)]

theorem integrate_acceleration_ok (t ax ay az : List ℚ)
    (hx : 7 ≤ ax.length) (hy : 7 ≤ ay.length) (hz : 7 ≤ az.length) :
    ∃ r, integrate_acceleration t ax ay az = .ok r := by
  unfold integrate_acceleration
  rw [savgol_filter_ok_of_le ax 7 3 hx, savgol_filter_ok_of_le ay 7 3 hy,
    savgol_filter_ok_of_le az 7 3 hz]
  exact ⟨_, rfl⟩

theorem integrate_acceleration_error_iff (t ax ay az : List ℚ)
    (hx : ax.length = t.length) (hy : ay.length = t.length)
    (hz : az.length = t.length) :
    integrate_acceleration t ax ay az = .error .insufficientSamples ↔
      t.length < 7 := by
  constructor
  · intro h
    by_contra hge
    obtain ⟨r, hr⟩ := integrate_acceleration_ok t ax ay az
      (by omega) (by omega) (by omega)
    rw [hr] at h
    exact absurd h (by simp)
  · intro h
    unfold integrate_acceleration
    have : savgol_filter ax 7 3 = .error .insufficientSamples :=
      (savgol_filter_error_iff ax 7 3).mpr (by omega)
    rw [this]
    rfl

/-! ## Lemmas about the divergence filter -/

theorem stepDistances_length (lats lons : List ℝ) (mc : ℕ) :
    (stepDistances lats lons mc).length = min (mc + 1) lats.length - 1 := by
  simp [stepDistances]

theorem scanRemoveAux_eq (threshold : ℝ) (ds : List ℝ) :
    ∀ i : ℕ, scanRemoveAux threshold i i ds =
      i + (ds.takeWhile (fun d => decide (threshold < d))).length := by
  induction ds with
  | nil => intro i; simp [scanRemoveAux]
  | cons d ds ih =>
    intro i
    by_cases h : threshold < d
    · simp [scanRemoveAux, h, ih (i + 1), List.takeWhile_cons]
      omega
    · simp [scanRemoveAux, h, List.takeWhile_cons]

theorem scanRemove_eq (ds : List ℝ) (threshold : ℝ) :
    scanRemove ds threshold =
      (ds.takeWhile (fun d => decide (threshold < d))).length := by
  simpa using scanRemoveAux_eq threshold ds 0

theorem filter_diverging_eq_drop (lats lons : List ℝ) (mc : ℕ) :
    filter_diverging_gps_points lats lons mc =
      (lats.drop (removedCount lats lons mc),
        lons.drop (removedCount lats lons mc),
        removedCount lats lons mc) := by
  by_cases h1 : lats.length < mc
  · simp [filter_diverging_gps_points, removedCount, h1]
  · by_cases h2 : (stepDistances lats lons mc).length < 3
    · simp [filter_diverging_gps_points, removedCount, h1, h2]
    · by_cases h3 : 0 < scanRemove (stepDistances lats lons mc)
        (2 * npMedian (stepDistances lats lons mc))
      · simp [filter_diverging_gps_points, removedCount, h1, h2, h3,
          ← scanRemove_eq]
      · rw [scanRemove_eq] at h3
        simp [filter_diverging_gps_points, removedCount, h1, h2, ← scanRemove_eq,
          scanRemove_eq, Nat.eq_zero_of_not_pos h3]

theorem removedCount_le (lats lons : List ℝ) (mc : ℕ) :
    removedCount lats lons mc ≤ min (mc + 1) lats.length - 1 := by
  by_cases h1 : lats.length < mc
  · simp [removedCount, h1]
  · by_cases h2 : (stepDistances lats lons mc).length < 3
    · simp [removedCount, h1, h2]
    · have h : removedCount lats lons mc =
          ((stepDistances lats lons mc).takeWhile
            (fun d => decide (2 * npMedian (stepDistances lats lons mc) < d))).length := by
        simp [removedCount, h1, h2]
      rw [h, ← stepDistances_length lats lons mc]
      exact (List.takeWhile_sublist _).length_le

theorem removedCount_lt_length (lats lons : List ℝ) (mc : ℕ)
    (h : 1 ≤ lats.length) : removedCount lats lons mc < lats.length := by
  have := removedCount_le lats lons mc
  omega

/-! ## Claim theorems -/

/-- Claim C2: cumulative trapezoidal integration: for every scalar signal of
length `n ≥ 1` with timestamps `t`, the output has length exactly `n`,
`out[0] = 0`, for every `i > 0`,
`out[i] = out[i-1] + (t[i]-t[i-1])*(v[i]+v[i-1])/2`, and a single-sample input
yields `[0]`. -/
theorem claim_C2 (y t : List ℚ) (hlen : y.length = t.length)
    (hpos : 1 ≤ y.length) :
    (cumulative_trapezoid y t).length = y.length ∧
    (cumulative_trapezoid y t).getD 0 0 = 0 ∧
    (∀ i : ℕ, i + 1 < y.length →
      (cumulative_trapezoid y t).getD (i + 1) 0 =
        (cumulative_trapezoid y t).getD i 0 +
          (t.getD (i + 1) 0 - t.getD i 0) * (y.getD (i + 1) 0 + y.getD i 0) / 2) ∧
    (y.length = 1 → cumulative_trapezoid y t = [0]) :=
  ⟨cumulative_trapezoid_length y t hlen, cumulative_trapezoid_getD_zero y t,
    fun i hi => cumulative_trapezoid_getD_succ y t hlen i hi,
    fun h1 => cumulative_trapezoid_single y t h1 (by omega)⟩

/-- Witness for C2 at `v = [1, 3]`, `t = [0, 2]`. -/
theorem claim_C2_witness :
    (cumulative_trapezoid [1, 3] [0, 2]).length = ([1, 3] : List ℚ).length ∧
    (cumulative_trapezoid [1, 3] [0, 2]).getD 0 0 = 0 ∧
    (∀ i : ℕ, i + 1 < ([1, 3] : List ℚ).length →
      (cumulative_trapezoid [1, 3] [0, 2]).getD (i + 1) 0 =
        (cumulative_trapezoid [1, 3] [0, 2]).getD i 0 +
          (([0, 2] : List ℚ).getD (i + 1) 0 - ([0, 2] : List ℚ).getD i 0) *
            (([1, 3] : List ℚ).getD (i + 1) 0 + ([1, 3] : List ℚ).getD i 0) / 2) ∧
    (([1, 3] : List ℚ).length = 1 → cumulative_trapezoid [1, 3] [0, 2] = [0]) :=
  claim_C2 [1, 3] [0, 2] rfl (by norm_num)

/-- Claim C4: for a constant signal `v = c` sampled at uniformly spaced
timestamps `t[j] = t0 + h*j`, cumulative trapezoidal integration yields
`out[i] = c*h*i` at every index `i < n`. -/
theorem claim_C4 (c h t0 : ℚ) (n i : ℕ) (hi : i < n) :
    (cumulative_trapezoid (List.replicate n c)
      ((List.range n).map (fun j : ℕ => t0 + h * (j : ℚ)))).getD i 0 = c * h * i := by
  have hy : ∀ j, j < n → (List.replicate n c).getD j 0 = c := by
    intro j hj
    simp [List.getD_eq_getElem?_getD, List.getElem?_replicate_of_lt hj]
  have ht : ∀ j, j < n →
      ((List.range n).map (fun j : ℕ => t0 + h * (j : ℚ))).getD j 0 = t0 + h * j := by
    intro j hj
    simp [List.getD_eq_getElem?_getD, List.getElem?_range hj]
  induction i with
  | zero =>
    rw [cumulative_trapezoid_getD_zero]
    simp
  | succ i ih =>
    have hlen : (List.replicate n c).length =
        ((List.range n).map (fun j : ℕ => t0 + h * (j : ℚ))).length := by simp
    have hrec := cumulative_trapezoid_getD_succ _ _ hlen i (by simpa using hi)
    rw [hrec, ih (by omega), hy i (by omega), hy (i + 1) hi, ht i (by omega),
      ht (i + 1) hi]
    push_cast
    ring

/-- Witness for C4 at `c = 2`, `h = 3`, `t0 = 5`, `n = 4`, `i = 2`. -/
theorem claim_C4_witness :
    2 < 4 ∧
    (cumulative_trapezoid (List.replicate 4 (2 : ℚ))
      ((List.range 4).map (fun j : ℕ => 5 + 3 * (j : ℚ)))).getD 2 0 = 2 * 3 * (2 : ℕ) :=
  ⟨by norm_num, claim_C4 2 3 5 4 2 (by norm_num)⟩

/-- Claim C3: Savitzky–Golay smoothing preserves the input length and fails
with `insufficientSamples` exactly when the input is shorter than the window;
`integrate_acceleration` propagates that failure exactly when the (equal-length)
axis series are shorter than the default window 7. -/
theorem claim_C3 :
    (∀ (xs : List ℚ) (w p : ℕ),
      savgol_filter xs w p = .error .insufficientSamples ↔ xs.length < w) ∧
    (∀ (xs : List ℚ) (w p : ℕ) (ys : List ℚ),
      savgol_filter xs w p = .ok ys → ys.length = xs.length) ∧
    (∀ t ax ay az : List ℚ, ax.length = t.length → ay.length = t.length →
      az.length = t.length →
      (integrate_acceleration t ax ay az = .error .insufficientSamples ↔
        t.length < 7)) :=
  ⟨savgol_filter_error_iff, savgol_filter_ok_length,
    integrate_acceleration_error_iff⟩

/-- Witness for C3: a length-3 input fails, a length-7 input is smoothed to the
same length, and the pipeline propagates the failure on length-3 axes. -/
theorem claim_C3_witness :
    savgol_filter [1, 2, 3] 7 3 = .error .insufficientSamples ∧
    ((List.range 7).map (savgolValue [0, 0, 0, 0, 0, 0, 0] 7)).length = 7 ∧
    integrate_acceleration [0, 1, 2] [0, 1, 2] [0, 1, 2] [0, 1, 2] =
      .error .insufficientSamples := by
  have hok : savgol_filter ([0, 0, 0, 0, 0, 0, 0] : List ℚ) 7 3 =
      .ok ((List.range ([0, 0, 0, 0, 0, 0, 0] : List ℚ).length).map
        (savgolValue [0, 0, 0, 0, 0, 0, 0] 7)) := by
    unfold savgol_filter
    norm_num
  refine ⟨(claim_C3.1 [1, 2, 3] 7 3).mpr (by norm_num), ?_,
    (claim_C3.2.2 [0, 1, 2] [0, 1, 2] [0, 1, 2] [0, 1, 2] rfl rfl rfl).mpr
      (by norm_num)⟩
  simpa using claim_C3.2.1 [0, 0, 0, 0, 0, 0, 0] 7 3 _ hok

theorem calculate_acceleration_frequency_of_lt (times : List ℚ)
    (h : 1 < times.length) :
    calculate_acceleration_frequency times =
      (if 0 < (times.getLast?.getD 0 - times.headD 0) / ((times.length : ℚ) - 1)
        then 1 / ((times.getLast?.getD 0 - times.headD 0) / ((times.length : ℚ) - 1))
        else 0, times.length) := by
  rw [calculate_acceleration_frequency, if_pos h]

/-- Claim C5: the frequency estimator returns `1/avg_interval` with
`avg_interval = (t[-1]-t[0])/(count-1)` when `avg_interval > 0`, the sentinel
`0` when `avg_interval ≤ 0` or when `count ≤ 1`, never failing; in particular
`estimate_frequency([0,1,2,3]) = (1.0, 4)` and
`estimate_frequency([5.0]) = (0.0, 1)`. -/
theorem claim_C5 :
    (∀ times : List ℚ, 1 < times.length →
      (0 < (times.getLast?.getD 0 - times.headD 0) / ((times.length : ℚ) - 1) →
        calculate_acceleration_frequency times =
          (1 / ((times.getLast?.getD 0 - times.headD 0) / ((times.length : ℚ) - 1)),
            times.length)) ∧
      ((times.getLast?.getD 0 - times.headD 0) / ((times.length : ℚ) - 1) ≤ 0 →
        calculate_acceleration_frequency times = (0, times.length))) ∧
    (∀ times : List ℚ, times.length ≤ 1 →
      calculate_acceleration_frequency times = (0, times.length)) ∧
    calculate_acceleration_frequency [0, 1, 2, 3] = (1, 4) ∧
    calculate_acceleration_frequency [5] = (0, 1) := by
  refine ⟨?_, ?_, by norm_num [calculate_acceleration_frequency],
    by norm_num [calculate_acceleration_frequency]⟩
  · intro times h
    constructor
    · intro hpos
      rw [calculate_acceleration_frequency_of_lt times h, if_pos hpos]
    · intro hnonpos
      rw [calculate_acceleration_frequency_of_lt times h,
        if_neg (not_lt.mpr hnonpos)]
  · intro times h
    rw [calculate_acceleration_frequency, if_neg (by omega)]

/-- Witness for C5 at `[0, 1, 2, 3]` (positive average interval) and `[5]`
(single sample). -/
theorem claim_C5_witness :
    calculate_acceleration_frequency [0, 1, 2, 3] =
      (1 / ((([0, 1, 2, 3] : List ℚ).getLast?.getD 0 -
          ([0, 1, 2, 3] : List ℚ).headD 0) / ((([0, 1, 2, 3] : List ℚ).length : ℚ) - 1)),
        ([0, 1, 2, 3] : List ℚ).length) ∧
    calculate_acceleration_frequency [5] = (0, ([5] : List ℚ).length) :=
  ⟨(claim_C5.1 [0, 1, 2, 3] (by norm_num)).1 (by norm_num),
    claim_C5.2.1 [5] (by norm_num)⟩

theorem except_bind_ok {ε α β : Type} (a : α) (f : α → Except ε β) :
    (Except.ok a : Except ε α) >>= f = f a := rfl

theorem except_pure_eq {ε α : Type} (a : α) :
    (pure a : Except ε α) = Except.ok a := rfl

/-- Claim C8 (amended): the pipeline performs no malformed-series validation:
`integrate_acceleration` raises no error on arbitrary (in particular
non-monotonic) timestamps, succeeding whenever every axis has at least the
filter window of 7 samples; no `MalformedSeries` failure path exists in the
code. -/
theorem claim_C8 (t ax ay az : List ℚ)
    (hx : 7 ≤ ax.length) (hy : 7 ≤ ay.length) (hz : 7 ≤ az.length) :
    ∃ r, integrate_acceleration t ax ay az = .ok r :=
  integrate_acceleration_ok t ax ay az hx hy hz

/-- Counterexample to claim C8 as stated: on the non-monotonic timestamp
series `[0, 2, 1, 3, 4, 5, 6]` the pipeline does not fail with any error — it
returns a full displacement result. -/
theorem claim_C8_counterexample :
    ¬ List.Sorted (· < ·) ([0, 2, 1, 3, 4, 5, 6] : List ℚ) ∧
    integrate_acceleration [0, 2, 1, 3, 4, 5, 6] [0, 0, 0, 0, 0, 0, 0]
        [0, 0, 0, 0, 0, 0, 0] [0, 0, 0, 0, 0, 0, 0] =
      .ok ([0, 0, 0, 0, 0, 0, 0], [0, 0, 0, 0, 0, 0, 0],
        [0, 0, 0, 0, 0, 0, 0], 7) := by
  constructor
  · intro hs
    rw [List.sorted_cons] at hs
    have hs2 := hs.2
    rw [List.sorted_cons] at hs2
    have h21 := hs2.1 1 (by norm_num)
    norm_num at h21
  · have hok : savgol_filter ([0, 0, 0, 0, 0, 0, 0] : List ℚ) 7 3 =
        .ok [0, 0, 0, 0, 0, 0, 0] := by
      norm_num [savgol_filter, savgolValue, fitCubicEval, momSum, powSum,
        det4, det3, List.range, List.range.loop]
    unfold integrate_acceleration
    rw [hok]
    simp only [except_bind_ok]
    norm_num [except_pure_eq, cumulative_trapezoid, cumtrapAux]

/-- Witness for the amended C8 at the non-monotonic timestamps
`[0, 2, 1, 3, 4, 5, 6]` with length-7 axis data. -/
theorem claim_C8_witness :
    ∃ r, integrate_acceleration [0, 2, 1, 3, 4, 5, 6] [1, 0, 0, 0, 0, 0, 2]
      [0, 1, 0, 0, 0, 2, 0] [0, 0, 1, 0, 2, 0, 0] = .ok r :=
  claim_C8 [0, 2, 1, 3, 4, 5, 6] [1, 0, 0, 0, 0, 0, 2] [0, 1, 0, 0, 0, 2, 0]
    [0, 0, 1, 0, 2, 0, 0] (by norm_num) (by norm_num) (by norm_num)

theorem sqrt_sq_add_sq_sub_self (a b c : ℝ) :
    Real.sqrt ((b - a) ^ 2 + (c - c) ^ 2) = |b - a| := by
  rw [sub_self]
  norm_num [Real.sqrt_sq_eq_abs]

theorem length_takeWhile_eq_three (p : ℝ → Bool) (ds : List ℝ)
    (hlen : 4 ≤ ds.length) (h0 : p (ds.getD 0 0) = true)
    (h1 : p (ds.getD 1 0) = true) (h2 : p (ds.getD 2 0) = true)
    (h3 : ¬ p (ds.getD 3 0) = true) :
    (ds.takeWhile p).length = 3 := by
  rcases ds with _ | ⟨a, _ | ⟨b, _ | ⟨c, _ | ⟨d, rest⟩⟩⟩⟩
  · simp at hlen
  · simp at hlen
  · simp at hlen
  · simp at hlen
  · norm_num [List.getD] at h0 h1 h2 h3
    simp [List.takeWhile_cons, h0, h1, h2, h3]

theorem removedCount_char (lats lons : List ℝ) (mc : ℕ)
    (h1 : ¬ lats.length < mc)
    (h2 : ¬ (stepDistances lats lons mc).length < 3) :
    removedCount lats lons mc =
      ((stepDistances lats lons mc).takeWhile
        (fun d => decide (2 * npMedian (stepDistances lats lons mc) < d))).length := by
  simp [removedCount, h1, h2]

/-- Claim C1: `filter_diverging_gps_points` with `max_points_to_check = 10`:
on series of length at least 10 it drops exactly the leading run of step
distances strictly above twice the median of the examined distances, stopping
at the first distance not above the threshold; on 10 positions whose first 3
steps exceed the threshold and whose 4th does not it removes exactly 3 points,
so the retained series starts at original index 3; series of length 5 are
returned unchanged with `removed_count = 0`. -/
theorem claim_C1 :
    (∀ lats lons : List ℝ, 10 ≤ lats.length →
      filter_diverging_gps_points lats lons 10 =
        (lats.drop ((stepDistances lats lons 10).takeWhile
            (fun d => decide (2 * npMedian (stepDistances lats lons 10) < d))).length,
          lons.drop ((stepDistances lats lons 10).takeWhile
            (fun d => decide (2 * npMedian (stepDistances lats lons 10) < d))).length,
          ((stepDistances lats lons 10).takeWhile
            (fun d => decide (2 * npMedian (stepDistances lats lons 10) < d))).length)) ∧
    (∀ lats lons : List ℝ, lats.length = 10 →
      2 * npMedian (stepDistances lats lons 10) < (stepDistances lats lons 10).getD 0 0 →
      2 * npMedian (stepDistances lats lons 10) < (stepDistances lats lons 10).getD 1 0 →
      2 * npMedian (stepDistances lats lons 10) < (stepDistances lats lons 10).getD 2 0 →
      ¬ 2 * npMedian (stepDistances lats lons 10) < (stepDistances lats lons 10).getD 3 0 →
      filter_diverging_gps_points lats lons 10 = (lats.drop 3, lons.drop 3, 3)) ∧
    (∀ lats lons : List ℝ, lats.length = 5 →
      filter_diverging_gps_points lats lons 10 = (lats, lons, 0)) := by
  refine ⟨?_, ?_, ?_⟩
  · intro lats lons h10
    have h1 : ¬ lats.length < 10 := by omega
    have h2 : ¬ (stepDistances lats lons 10).length < 3 := by
      rw [stepDistances_length]
      omega
    rw [filter_diverging_eq_drop, removedCount_char lats lons 10 h1 h2]
  · intro lats lons hlen hc0 hc1 hc2 hc3
    have h1 : ¬ lats.length < 10 := by omega
    have hdsl : (stepDistances lats lons 10).length = 9 := by
      rw [stepDistances_length, hlen]
      norm_num
    have h2 : ¬ (stepDistances lats lons 10).length < 3 := by omega
    have hk : removedCount lats lons 10 = 3 := by
      rw [removedCount_char lats lons 10 h1 h2]
      exact length_takeWhile_eq_three _ _ (by omega) (decide_eq_true hc0)
        (decide_eq_true hc1) (decide_eq_true hc2) (by simpa using hc3)
    rw [filter_diverging_eq_drop, hk]
  · intro lats lons hlen
    have h1 : lats.length < 10 := by omega
    simp [filter_diverging_gps_points, h1]

/-- Witness for C1: 10 positions whose first 3 steps are 10 degrees and
remaining steps 1 degree (median 1, threshold 2): exactly 3 points removed;
and a length-5 series is returned unchanged. -/
theorem claim_C1_witness :
    filter_diverging_gps_points [0, 10, 20, 30, 31, 32, 33, 34, 35, 36]
      [0, 0, 0, 0, 0, 0, 0, 0, 0, 0] 10 =
      (([0, 10, 20, 30, 31, 32, 33, 34, 35, 36] : List ℝ).drop 3,
        ([0, 0, 0, 0, 0, 0, 0, 0, 0, 0] : List ℝ).drop 3, 3) ∧
    filter_diverging_gps_points [7, 8, 9, 10, 11] [0, 1, 2, 3, 4] 10 =
      ([7, 8, 9, 10, 11], [0, 1, 2, 3, 4], 0) := by
  have h100 : Real.sqrt 100 = 10 := by
    rw [show (100 : ℝ) = 10 ^ 2 by norm_num]
    exact Real.sqrt_sq (by norm_num)
  have hd : stepDistances [0, 10, 20, 30, 31, 32, 33, 34, 35, 36]
      [0, 0, 0, 0, 0, 0, 0, 0, 0, 0] 10 = [10, 10, 10, 1, 1, 1, 1, 1, 1] := by
    norm_num [stepDistances, List.range', sqrt_sq_add_sq_sub_self, List.getD,
      h100, Real.sqrt_one]
  have hm : npMedian [10, 10, 10, 1, 1, 1, 1, 1, 1] = 1 := by
    norm_num [npMedian, List.insertionSort, List.orderedInsert]
  refine ⟨claim_C1.2.1 [0, 10, 20, 30, 31, 32, 33, 34, 35, 36]
    [0, 0, 0, 0, 0, 0, 0, 0, 0, 0] (by norm_num) ?_ ?_ ?_ ?_,
    claim_C1.2.2 [7, 8, 9, 10, 11] [0, 1, 2, 3, 4] (by norm_num)⟩ <;>
      rw [hd, hm] <;> norm_num [List.getD]

/-- Claim C6 (amended): re-running `filter_diverging_gps_points` on its own
output removes no further points when the first application removed none, or
when the retained output is shorter than `max_points_to_check`; in general a
second application can remove additional points, because dropping the leading
run shifts the window over which the median is taken. -/
theorem claim_C6 (lats lons : List ℝ)
    (h : (filter_diverging_gps_points lats lons 10).2.2 = 0 ∨
      (filter_diverging_gps_points lats lons 10).1.length < 10) :
    filter_diverging_gps_points (filter_diverging_gps_points lats lons 10).1
      (filter_diverging_gps_points lats lons 10).2.1 10 =
      ((filter_diverging_gps_points lats lons 10).1,
        (filter_diverging_gps_points lats lons 10).2.1, 0) := by
  have heq := filter_diverging_eq_drop lats lons 10
  rcases h with h | h
  · have hk : removedCount lats lons 10 = 0 := by
      rw [heq] at h
      exact h
    rw [heq, hk]
    simp only [List.drop_zero]
    rw [heq, hk]
    simp only [List.drop_zero]
  · rw [heq] at h ⊢
    rw [List.length_drop] at h
    simp [filter_diverging_gps_points, h]

/-- Counterexample to claim C6 as stated: on these 12 positions the first
application removes 1 point (threshold 16 from median 8), and re-running the
filter on the retained output removes 1 more point (threshold 9 from the new
median 4.5), so the second `removed_count` is 1, not 0. -/
theorem claim_C6_counterexample :
    filter_diverging_gps_points
      [0, 100, 110, 118, 126, 134, 142, 143, 144, 145, 146, 147]
      [0, 0, 0, 0, 0, 0, 0, 0, 0, 0, 0, 0] 10 =
      ([100, 110, 118, 126, 134, 142, 143, 144, 145, 146, 147],
        [0, 0, 0, 0, 0, 0, 0, 0, 0, 0, 0], 1) ∧
    filter_diverging_gps_points
      [100, 110, 118, 126, 134, 142, 143, 144, 145, 146, 147]
      [0, 0, 0, 0, 0, 0, 0, 0, 0, 0, 0] 10 =
      ([110, 118, 126, 134, 142, 143, 144, 145, 146, 147],
        [0, 0, 0, 0, 0, 0, 0, 0, 0, 0], 1) := by
  have h10000 : Real.sqrt 10000 = 100 := by
    rw [show (10000 : ℝ) = 100 ^ 2 by norm_num]
    exact Real.sqrt_sq (by norm_num)
  have h100 : Real.sqrt 100 = 10 := by
    rw [show (100 : ℝ) = 10 ^ 2 by norm_num]
    exact Real.sqrt_sq (by norm_num)
  have h64 : Real.sqrt 64 = 8 := by
    rw [show (64 : ℝ) = 8 ^ 2 by norm_num]
    exact Real.sqrt_sq (by norm_num)
  constructor
  · have hd : stepDistances
        [0, 100, 110, 118, 126, 134, 142, 143, 144, 145, 146, 147]
        [0, 0, 0, 0, 0, 0, 0, 0, 0, 0, 0, 0] 10 =
        [100, 10, 8, 8, 8, 8, 1, 1, 1, 1] := by
      norm_num [stepDistances, List.range', sqrt_sq_add_sq_sub_self, List.getD,
        h10000, h100, h64, Real.sqrt_one]
    have hm : npMedian [100, 10, 8, 8, 8, 8, 1, 1, 1, 1] = 8 := by
      norm_num [npMedian, List.insertionSort, List.orderedInsert]
    simp only [filter_diverging_gps_points, hd, hm]
    norm_num [scanRemove, scanRemoveAux]
  · have hd : stepDistances
        [100, 110, 118, 126, 134, 142, 143, 144, 145, 146, 147]
        [0, 0, 0, 0, 0, 0, 0, 0, 0, 0, 0] 10 =
        [10, 8, 8, 8, 8, 1, 1, 1, 1, 1] := by
      norm_num [stepDistances, List.range', sqrt_sq_add_sq_sub_self, List.getD,
        h100, h64, Real.sqrt_one]
    have hm : npMedian [10, 8, 8, 8, 8, 1, 1, 1, 1, 1] = 9 / 2 := by
      norm_num [npMedian, List.insertionSort, List.orderedInsert]
    simp only [filter_diverging_gps_points, hd, hm]
    norm_num [scanRemove, scanRemoveAux]

/-- Witness for the amended C6 at a length-5 series, where the first
application removes nothing and the output is shorter than 10. -/
theorem claim_C6_witness :
    filter_diverging_gps_points
      (filter_diverging_gps_points [0, 1, 2, 3, 4] [5, 5, 5, 5, 5] 10).1
      (filter_diverging_gps_points [0, 1, 2, 3, 4] [5, 5, 5, 5, 5] 10).2.1 10 =
      ((filter_diverging_gps_points [0, 1, 2, 3, 4] [5, 5, 5, 5, 5] 10).1,
        (filter_diverging_gps_points [0, 1, 2, 3, 4] [5, 5, 5, 5, 5] 10).2.1,
        0) := by
  have hbase : filter_diverging_gps_points ([0, 1, 2, 3, 4] : List ℝ)
      [5, 5, 5, 5, 5] 10 = ([0, 1, 2, 3, 4], [5, 5, 5, 5, 5], 0) := by
    norm_num [filter_diverging_gps_points]
  exact claim_C6 [0, 1, 2, 3, 4] [5, 5, 5, 5, 5]
    (Or.inr (by rw [hbase]; norm_num))

/-- Claim C7: the divergence filter removes only a contiguous leading run: the
retained series are `drop removed_count` of the inputs, and `removed_count`
equals the length difference for both coordinate arrays. -/
theorem claim_C7 (lats lons : List ℝ) (mc : ℕ) (h : lats.length = lons.length) :
    (filter_diverging_gps_points lats lons mc).1 =
      lats.drop (filter_diverging_gps_points lats lons mc).2.2 ∧
    (filter_diverging_gps_points lats lons mc).2.1 =
      lons.drop (filter_diverging_gps_points lats lons mc).2.2 ∧
    (filter_diverging_gps_points lats lons mc).2.2 =
      lats.length - (filter_diverging_gps_points lats lons mc).1.length ∧
    (filter_diverging_gps_points lats lons mc).2.2 =
      lons.length - (filter_diverging_gps_points lats lons mc).2.1.length := by
  have heq := filter_diverging_eq_drop lats lons mc
  have hle := removedCount_le lats lons mc
  rw [heq]
  dsimp only
  refine ⟨rfl, rfl, ?_, ?_⟩ <;> rw [List.length_drop] <;> omega

/-- Witness for C7 at `lats = [1, 2, 3]`, `lons = [4, 5, 6]`, default
`max_points_to_check = 10`. -/
theorem claim_C7_witness :
    (filter_diverging_gps_points [1, 2, 3] [4, 5, 6] 10).1 =
      ([1, 2, 3] : List ℝ).drop (filter_diverging_gps_points [1, 2, 3] [4, 5, 6] 10).2.2 ∧
    (filter_diverging_gps_points [1, 2, 3] [4, 5, 6] 10).2.1 =
      ([4, 5, 6] : List ℝ).drop (filter_diverging_gps_points [1, 2, 3] [4, 5, 6] 10).2.2 ∧
    (filter_diverging_gps_points [1, 2, 3] [4, 5, 6] 10).2.2 =
      ([1, 2, 3] : List ℝ).length -
        (filter_diverging_gps_points [1, 2, 3] [4, 5, 6] 10).1.length ∧
    (filter_diverging_gps_points [1, 2, 3] [4, 5, 6] 10).2.2 =
      ([4, 5, 6] : List ℝ).length -
        (filter_diverging_gps_points [1, 2, 3] [4, 5, 6] 10).2.1.length :=
  claim_C7 [1, 2, 3] [4, 5, 6] 10 rfl

/-- Claim C9: for equal-length nonempty inputs the removed count is at most
`min(max_points_to_check, n-1)`, so the retained series are never empty. -/
theorem claim_C9 (lats lons : List ℝ) (h : lats.length = lons.length)
    (hpos : 1 ≤ lats.length) :
    (filter_diverging_gps_points lats lons 10).2.2 ≤ min 10 (lats.length - 1) ∧
    1 ≤ (filter_diverging_gps_points lats lons 10).1.length ∧
    1 ≤ (filter_diverging_gps_points lats lons 10).2.1.length := by
  have heq := filter_diverging_eq_drop lats lons 10
  have hle := removedCount_le lats lons 10
  rw [heq]
  dsimp only
  refine ⟨by omega, ?_, ?_⟩ <;> rw [List.length_drop] <;> omega

/-- Witness for C9 at the single-point series `lats = [3]`, `lons = [4]`. -/
theorem claim_C9_witness :
    (filter_diverging_gps_points [3] [4] 10).2.2 ≤ min 10 (([3] : List ℝ).length - 1) ∧
    1 ≤ (filter_diverging_gps_points [3] [4] 10).1.length ∧
    1 ≤ (filter_diverging_gps_points [3] [4] 10).2.1.length :=
  claim_C9 [3] [4] rfl (by norm_num)

/-- Claim C10: the threshold comparison is strict: when the first examined
step distance equals `2 * median` exactly, nothing is removed and the series
is returned unchanged. -/
theorem claim_C10 (lats lons : List ℝ) (h10 : 10 ≤ lats.length)
    (hth : (stepDistances lats lons 10).getD 0 0 =
      2 * npMedian (stepDistances lats lons 10)) :
    filter_diverging_gps_points lats lons 10 = (lats, lons, 0) := by
  have h1 : ¬ lats.length < 10 := by omega
  have h2 : ¬ (stepDistances lats lons 10).length < 3 := by
    rw [stepDistances_length]
    omega
  have hk : removedCount lats lons 10 = 0 := by
    rw [removedCount_char lats lons 10 h1 h2]
    rcases hds : stepDistances lats lons 10 with _ | ⟨d0, rest⟩
    · simp
    · rw [hds] at hth
      simp only [List.getD_cons_zero] at hth
      have hnot : ¬ 2 * npMedian (d0 :: rest) < d0 := fun hlt =>
        (ne_of_lt hlt) hth.symm
      simp [List.takeWhile_cons, hnot]
  rw [filter_diverging_eq_drop, hk]
  simp only [List.drop_zero]

/-- Witness for C10: 11 positions whose first step is exactly 2 degrees with
median step 1 (threshold exactly 2): the series is returned unchanged. -/
theorem claim_C10_witness :
    filter_diverging_gps_points [0, 2, 3, 4, 5, 6, 7, 8, 9, 10, 11]
      [0, 0, 0, 0, 0, 0, 0, 0, 0, 0, 0] 10 =
      ([0, 2, 3, 4, 5, 6, 7, 8, 9, 10, 11], [0, 0, 0, 0, 0, 0, 0, 0, 0, 0, 0],
        0) := by
  have h4 : Real.sqrt 4 = 2 := by
    rw [show (4 : ℝ) = 2 ^ 2 by norm_num]
    exact Real.sqrt_sq (by norm_num)
  have hd : stepDistances [0, 2, 3, 4, 5, 6, 7, 8, 9, 10, 11]
      [0, 0, 0, 0, 0, 0, 0, 0, 0, 0, 0] 10 = [2, 1, 1, 1, 1, 1, 1, 1, 1, 1] := by
    norm_num [stepDistances, List.range', sqrt_sq_add_sq_sub_self, List.getD,
      h4, Real.sqrt_one]
  have hm : npMedian [2, 1, 1, 1, 1, 1, 1, 1, 1, 1] = 1 := by
    norm_num [npMedian, List.insertionSort, List.orderedInsert]
  exact claim_C10 [0, 2, 3, 4, 5, 6, 7, 8, 9, 10, 11]
    [0, 0, 0, 0, 0, 0, 0, 0, 0, 0, 0] (by norm_num)
    (by rw [hd, hm]; norm_num [List.getD])

end MapCreator
